import Mathlib

/-!
Verification development for the qtable document store (src/src/*.rs).

The embedding models:
  * the parser's data model (`DataObject`, `Data`, `InsertData`, `Condition`,
    `Query`, `Command`, `SyntaxError`) from src/src/parser.rs;
  * the index (`IndexId`, the sorted map `IndexMap`, the query operations of
    `IndexImpl`) from src/src/index.rs;
  * the table (`NoSqlDataObject` and its insert/update/delete/query handlers)
    from src/src/data_object.rs;
  * the database dispatcher (`NoSqlDatabase.handle_query`) from
    src/src/database.rs;
  * the bincode 1.x codec used by the source for records (fixed-width
    little-endian integers, u64 length prefixes, u32 enum tags, one byte per
    bool), at the granularity needed by the length/round-trip claims.

Rust `String`s that serve as index keys are modelled by their character
sequences (`List Char`); the Rust `Ord` on `String` is byte-wise
lexicographic on the UTF-8 encoding, which induces the same order as
code-point-wise lexicographic comparison, modelled here by `lexLt`.
`HashMap`s are modelled as association lists with `List.lookup`, `BTreeMap`s
as key-sorted association lists.
-/

namespace QTable

/-- Key of an index entry: the character sequence of the Rust `String` key. -/
abbrev Key := List Char

/-- Byte-wise / character-wise lexicographic strict order, the order `Ord` on
Rust `String` uses (`"10" < "2"` under this order). -/
def lexLt : Key → Key → Bool
  | [], [] => false
  | [], _ :: _ => true
  | _ :: _, [] => false
  | a :: as, b :: bs => if a < b then true else if b < a then false else lexLt as bs

/-- Embeds `enum Number` (src/src/parser.rs).  The `f64` payload of `Float` is
modelled by its 64-bit IEEE-754 bit pattern; no claim below depends on
floating-point arithmetic or rendering. -/
inductive Number where
  | Int (v : Int)
  | Float (bits : Nat)
deriving Repr

mutual
/-- Embeds `enum DataObject` (src/src/parser.rs): the recursive document
value: string, number, bool, array, object (ordered key/value pairs), null. -/
inductive DataObject where
  | String (s : String)
  | Number (n : Number)
  | Bool (b : Bool)
  | Array (xs : List DataObject)
  | Object (ds : List Data)
  | Null
deriving Repr

/-- Embeds `struct Data` (src/src/parser.rs): one key/value pair of an
object. -/
inductive Data where
  | mk (key : String) (value : DataObject)
deriving Repr
end

/-- Projection for the `key` field of `struct Data`. -/
def Data.key : Data → String
  | .mk k _ => k

/-- Projection for the `value` field of `struct Data`. -/
def Data.value : Data → DataObject
  | .mk _ v => v

/-- Embeds `enum WildCardOperations` (src/src/parser.rs). -/
inductive WildCardOperations where
  | StartsWith (attr value : String)
  | EndsWith (attr value : String)
  | Contains (attr value : String)
deriving Repr, DecidableEq

/-- Embeds `enum Condition` (src/src/parser.rs): the WHERE-clause algebra. -/
inductive Condition where
  | WildCard (op : WildCardOperations)
  | Equal (attr value : String)
  | GreaterThan (attr value : String)
  | GreaterThanOrEqual (attr value : String)
  | LessThan (attr value : String)
  | LessThanOrEqual (attr value : String)
  | And (left right : Condition)
  | Or (left right : Condition)
deriving Repr, DecidableEq

/-- Embeds `struct Query` (src/src/parser.rs). -/
structure Query where
  db : String
  table_name : String
  filter : Condition
deriving Repr

/-- Embeds `struct InsertData` (src/src/parser.rs): the record unit stored in
the data log. -/
structure InsertData where
  object_id : String
  table : String
  data : DataObject
  active : Bool
deriving Repr

/-- Embeds `struct Definition` (src/src/parser.rs): one schema entry. -/
structure Definition where
  data_type : String
  indexed : Bool
  optional : Bool
deriving Repr, DecidableEq

/-- Embeds `struct IndexId` (src/src/index.rs): a (position, length) locator
into the table's data file.  The `u64`/`usize` fields are modelled by `Nat`
(no claim involves arithmetic near 2^64). -/
structure IndexId where
  position : Nat
  length : Nat
deriving Repr, DecidableEq

/-- Embeds `enum RangeOp` (src/src/data_object.rs). -/
inductive RangeOp where
  | GreaterThan
  | GreaterThanOrEqual
  | LessThan
  | LessThanOrEqual
deriving Repr, DecidableEq

/-- Embeds `enum DataObjectError` (src/src/data_object.rs). -/
inductive DataObjectError where
  | Serialize (msg : String)
  | Deserialize (msg : String)
  | Update (msg : String)
  | Insert (msg : String)
  | Delete (msg : String)
  | Create (msg : String)
deriving Repr, DecidableEq

/-- Embeds the `index_map: BTreeMap<String, Vec<IndexId>>` of `IndexImpl`
(src/src/index.rs) as an association list; iteration order of the model list
is the map's ascending key order, recorded by `IndexMapSorted` below. -/
abbrev IndexMap := List (Key × List IndexId)

/-- The `BTreeMap` invariant of the model: entries are strictly ascending in
the key order, which is what makes the association list ordered exactly the
way `BTreeMap` iteration is. -/
def IndexMapSorted (m : IndexMap) : Prop :=
  List.Pairwise (fun a b => lexLt a.1 b.1 = true) m

instance : DecidablePred IndexMapSorted := fun m =>
  inferInstanceAs (Decidable (List.Pairwise _ m))

namespace IndexImpl

/-- Embeds `IndexImpl::add_to_index` (src/src/index.rs): append the locator
to the entry at `value`, creating the entry if absent
(`entry(value).or_default().push(id)`); insertion keeps the map sorted. -/
def add_to_index (m : IndexMap) (value : Key) (object_id : IndexId) : IndexMap :=
  match m with
  | [] => [(value, [object_id])]
  | (k, ids) :: t =>
      if value = k then (k, ids ++ [object_id]) :: t
      else if lexLt value k then (value, [object_id]) :: (k, ids) :: t
      else (k, ids) :: add_to_index t value object_id

/-- Embeds `IndexImpl::remove_from_index` (src/src/index.rs): retain in the
entry at `value` only the locators different from `object_id`. -/
def remove_from_index (m : IndexMap) (value : Key) (object_id : IndexId) : IndexMap :=
  m.map (fun e => if e.1 = value then (e.1, e.2.filter (fun i => i ≠ object_id)) else e)

/-- Embeds `IndexImpl::query_equal` (src/src/index.rs): exact-match lookup,
empty when the key is absent. -/
def query_equal (m : IndexMap) (value : Key) : List IndexId :=
  match m.lookup value with
  | some object_ids => object_ids
  | none => []

/-- Embeds `IndexImpl::query_range` (src/src/index.rs): the first loop pushes
the locator list of every key satisfying the comparison with `value`
(`key > value` is `lexLt value key`, `key >= value` is `!lexLt key value`,
and so on), in map iteration order; the second loop concatenates them. -/
def query_range (m : IndexMap) (value : Key) (op : RangeOp) : List IndexId :=
  let range : List (List IndexId) :=
    m.foldl (fun acc e =>
      match op with
      | .GreaterThan => if lexLt value e.1 then acc ++ [e.2] else acc
      | .GreaterThanOrEqual => if !lexLt e.1 value then acc ++ [e.2] else acc
      | .LessThan => if lexLt e.1 value then acc ++ [e.2] else acc
      | .LessThanOrEqual => if !lexLt value e.1 then acc ++ [e.2] else acc) []
  range.foldl (fun results object_ids => results ++ object_ids) []

/-- Embeds `IndexImpl::query_prefix` (src/src/index.rs):
`index_map.range(prefix..)` seeks to the lower bound — on the sorted model
list this is `dropWhile (key < prefix)` — then `take_while` keeps entries
while the key starts with the prefix, and the loop body concatenates the
locator lists. -/
def queryPfx (m : IndexMap) (p : Key) : List IndexId :=
  (((m.dropWhile (fun e => lexLt e.1 p)).takeWhile (fun e => p.isPrefixOf e.1))).foldl
    (fun results e => results ++ e.2) []

/-- Embeds `IndexImpl::query_suffix` (src/src/index.rs): scan all entries,
keep those whose key ends with the suffix, concatenate. -/
def query_suffix (m : IndexMap) (s : Key) : List IndexId :=
  ((m.filter (fun e => s.isSuffixOf e.1))).foldl (fun results e => results ++ e.2) []

/-- Substring test used to embed Rust `str::contains`. -/
def keyContains (sub : Key) (k : Key) : Bool :=
  k.tails.any (fun t => sub.isPrefixOf t)

/-- Embeds `IndexImpl::query_contains` (src/src/index.rs): scan all entries,
keep those whose key contains the substring, concatenate. -/
def query_contains (m : IndexMap) (s : Key) : List IndexId :=
  ((m.filter (fun e => keyContains s e.1))).foldl (fun results e => results ++ e.2) []

end IndexImpl

/-- Embeds `Vec::dedup` as called at the end of the `Condition::Or` branch of
`NoSqlDataObject::query` (src/src/data_object.rs): remove the *consecutive*
duplicates, keeping the first element of every run. -/
def vecDedup : List IndexId → List IndexId
  | [] => []
  | a :: t => a :: vecDedupFrom a t
where
  /-- Tail worker: `prev` is the last element kept so far. -/
  vecDedupFrom (prev : IndexId) : List IndexId → List IndexId
  | [] => []
  | b :: t => if prev = b then vecDedupFrom prev t else b :: vecDedupFrom b t

/-!
Bincode 1.x codec model (the `bincode::serialize` / `bincode::deserialize`
calls of src/src/data_object.rs): fixed-width little-endian integers, `u64`
length prefixes for strings and sequences, a `u32` variant tag for enums, one
byte per `bool`.  Bytes are `Nat`s; a string's content is modelled by its
character code points (identical to the UTF-8 bytes for the ASCII data used
throughout). -/

/-- Little-endian 8-byte encoding of a `u64`. -/
def u64le (n : Nat) : List Nat :=
  [n % 256, n / 256 % 256, n / 256 ^ 2 % 256, n / 256 ^ 3 % 256,
   n / 256 ^ 4 % 256, n / 256 ^ 5 % 256, n / 256 ^ 6 % 256, n / 256 ^ 7 % 256]

/-- Little-endian 4-byte encoding of a `u32` (bincode's enum variant tag). -/
def u32le (n : Nat) : List Nat :=
  [n % 256, n / 256 % 256, n / 256 ^ 2 % 256, n / 256 ^ 3 % 256]

/-- Bincode encoding of a string: u64 length prefix then the content. -/
def serString (s : String) : List Nat :=
  u64le s.data.length ++ s.data.map Char.toNat

/-- Bincode encoding of `enum Number`: u32 variant tag, then 8 bytes (the
two's-complement `i64` or the IEEE-754 `f64` bit pattern). -/
def serNumber : Number → List Nat
  | .Int v => u32le 0 ++ u64le (v.emod (2 ^ 64)).toNat
  | .Float bits => u32le 1 ++ u64le (bits % 2 ^ 64)

mutual
/-- Bincode encoding of `enum DataObject`: u32 variant tag then the payload;
sequences carry a u64 element count. -/
def serDataObject : DataObject → List Nat
  | .String s => u32le 0 ++ serString s
  | .Number n => u32le 1 ++ serNumber n
  | .Bool b => u32le 2 ++ [if b then 1 else 0]
  | .Array xs => u32le 3 ++ u64le xs.length ++ serObjList xs
  | .Object ds => u32le 4 ++ u64le ds.length ++ serDataList ds
  | .Null => u32le 5

/-- Concatenated encodings of the elements of an array. -/
def serObjList : List DataObject → List Nat
  | [] => []
  | x :: t => serDataObject x ++ serObjList t

/-- Concatenated encodings of the fields of an object: each `Data` is its key
string followed by its value. -/
def serDataList : List Data → List Nat
  | [] => []
  | .mk k v :: t => serString k ++ serDataObject v ++ serDataList t
end

/-- Bincode encoding of `struct InsertData` (the record format of the data
log): the four fields in declaration order; `active` is always exactly one
byte. -/
def serInsertData (r : InsertData) : List Nat :=
  serString r.object_id ++ serString r.table ++ serDataObject r.data ++
    [if r.active then 1 else 0]

/-- Split `n` leading bytes off a byte list; `none` models `read_exact`
hitting end of data. -/
def readBytesN (n : Nat) (bs : List Nat) : Option (List Nat × List Nat) :=
  if n ≤ bs.length then some (bs.take n, bs.drop n) else none

/-- Little-endian byte list to `Nat`. -/
def leToNat (bs : List Nat) : Nat :=
  bs.foldr (fun b acc => b + 256 * acc) 0

/-- Read a little-endian u64. -/
def readU64 (bs : List Nat) : Option (Nat × List Nat) :=
  (readBytesN 8 bs).map (fun p => (leToNat p.1, p.2))

/-- Read a little-endian u32 (enum variant tag). -/
def readU32 (bs : List Nat) : Option (Nat × List Nat) :=
  (readBytesN 4 bs).map (fun p => (leToNat p.1, p.2))

/-- Read one bincode bool byte; any value other than 0 or 1 is rejected. -/
def readBool (bs : List Nat) : Option (Bool × List Nat) :=
  match bs with
  | 0 :: t => some (false, t)
  | 1 :: t => some (true, t)
  | _ => none

/-- Read a length-prefixed string. -/
def readString (bs : List Nat) : Option (String × List Nat) := do
  let (n, bs) ← readU64 bs
  let (cs, bs) ← readBytesN n bs
  some (String.mk (cs.map Char.ofNat), bs)

/-- Unsigned 64-bit value reinterpreted as a two's-complement `i64`. -/
def i64OfU64 (n : Nat) : Int :=
  if n < 2 ^ 63 then (n : Int) else (n : Int) - 2 ^ 64

mutual
/-- Bincode decoder for `DataObject`.  The `fuel` argument bounds the
recursion depth; every call site passes at least the byte count, which
exceeds any reachable depth because each nested element consumes bytes. -/
def deserDataObject : Nat → List Nat → Option (DataObject × List Nat)
  | 0, _ => none
  | fuel + 1, bs => do
      let (tag, bs) ← readU32 bs
      match tag with
      | 0 => do
          let (s, bs) ← readString bs
          some (.String s, bs)
      | 1 => do
          let (ntag, bs) ← readU32 bs
          match ntag with
          | 0 => do
              let (v, bs) ← readU64 bs
              some (.Number (.Int (i64OfU64 v)), bs)
          | 1 => do
              let (v, bs) ← readU64 bs
              some (.Number (.Float v), bs)
          | _ => none
      | 2 => do
          let (b, bs) ← readBool bs
          some (.Bool b, bs)
      | 3 => do
          let (n, bs) ← readU64 bs
          let (xs, bs) ← deserObjList fuel n bs
          some (.Array xs, bs)
      | 4 => do
          let (n, bs) ← readU64 bs
          let (ds, bs) ← deserDataList fuel n bs
          some (.Object ds, bs)
      | 5 => some (.Null, bs)
      | _ => none

/-- Decode `n` array elements. -/
def deserObjList : Nat → Nat → List Nat → Option (List DataObject × List Nat)
  | _, 0, bs => some ([], bs)
  | 0, _ + 1, _ => none
  | fuel + 1, n + 1, bs => do
      let (x, bs) ← deserDataObject fuel bs
      let (xs, bs) ← deserObjList fuel n bs
      some (x :: xs, bs)

/-- Decode `n` object fields (key string, then value). -/
def deserDataList : Nat → Nat → List Nat → Option (List Data × List Nat)
  | _, 0, bs => some ([], bs)
  | 0, _ + 1, _ => none
  | fuel + 1, n + 1, bs => do
      let (k, bs) ← readString bs
      let (v, bs) ← deserDataObject fuel bs
      let (ds, bs) ← deserDataList fuel n bs
      some (Data.mk k v :: ds, bs)
end

/-- Bincode decoder for `struct InsertData`, the shape read back by
`get_record` / `delete_records` (src/src/data_object.rs). -/
def deserInsertData (bs : List Nat) : Option InsertData := do
  let (object_id, bs) ← readString bs
  let (table, bs) ← readString bs
  let (data, bs) ← deserDataObject (bs.length + 1) bs
  let (active, _) ← readBool bs
  some { object_id := object_id, table := table, data := data, active := active }

/-!  Table-level model: `NoSqlDataObject` (src/src/data_object.rs). -/

/-- Embeds the `Display` impl of `DataObject` (src/src/parser.rs), used to
turn an attribute value into an index key.  `none` models the `todo!()`
panics of the `Array`, `Object` and `Null` arms; the decimal rendering of a
`Float` is not modelled (`none` as well) — no claim below reaches either
case. -/
def displayDataObject : DataObject → Option String
  | .String v => some v
  | .Number (.Int v) => some (toString v)
  | .Number (.Float _) => none
  | .Bool v => some (toString v)
  | .Array _ => none
  | .Object _ => none
  | .Null => none

/-- Debug rendering of a `DataObject`, after the derived `Debug` used by
`format!("{:?}", ...)` in `validate_index_data`; the float arm is
approximated (no claim inspects this text). -/
def debugDataObject : DataObject → String
  | .String s => "String(\"" ++ s ++ "\")"
  | .Number (.Int v) => "Number(Int(" ++ toString v ++ "))"
  | .Number (.Float bits) => "Number(Float(" ++ toString bits ++ "))"
  | .Bool b => "Bool(" ++ toString b ++ ")"
  | .Array _ => "Array([...])"
  | .Object _ => "Object([...])"
  | .Null => "Null"

/-- Debug rendering of a `Data` pair. -/
def debugData (d : Data) : String :=
  "Data \x7b key: \"" ++ d.key ++ "\", value: " ++ debugDataObject d.value ++ " \x7d"

/-- Debug rendering of a list of `Data` (the `{:?}` of a `Vec<&Data>`). -/
def debugDataList (ds : List Data) : String :=
  "[" ++ String.intercalate ", " (ds.map debugData) ++ "]"

/-- Embeds `struct NoSqlDataObject` (src/src/data_object.rs).  The
`data_object` name and `root_path` only select files on disk; the content of
the table's single data file `<table>.dat` is modelled by `dataFile`, and the
persisted per-attribute indices by the in-memory `index` map they mirror. -/
structure NoSqlDataObject where
  definition : List (String × Definition)
  index : List (String × IndexMap)
  dataFile : List Nat

namespace NoSqlDataObject

/-- Embeds `NoSqlDataObject::get_attributes` (src/src/data_object.rs): the
field list of an object, empty for any other value shape. -/
def get_attributes (insert_data : DataObject) : List Data :=
  match insert_data with
  | .Object data => data
  | _ => []

/-- Embeds `NoSqlDataObject::validate_index_data` (src/src/data_object.rs):
collect the attributes whose key is not in the schema; any such attribute is
an `Insert` error.  `some e` models `Err(e)`, `none` models `Ok(())`. -/
def validate_index_data (definition : List (String × Definition))
    (attributes : List Data) : Option DataObjectError :=
  let null_indexed_attra :=
    attributes.filter (fun att => (definition.lookup att.key).isNone)
  if !null_indexed_attra.isEmpty then
    some (.Insert ("Attributes " ++ debugDataList null_indexed_attra ++ " are not defined"))
  else none

/-- Embeds `NoSqlDataObject::query_equal` (src/src/data_object.rs): delegate
to the attribute's index, empty when the attribute has no index. -/
def query_equal (t : NoSqlDataObject) (attr : String) (value : String) : List IndexId :=
  match t.index.lookup attr with
  | some m => IndexImpl.query_equal m value.data
  | none => []

/-- Embeds `NoSqlDataObject::query_range` (src/src/data_object.rs). -/
def query_range (t : NoSqlDataObject) (attr : String) (value : String)
    (op : RangeOp) : List IndexId :=
  match t.index.lookup attr with
  | some m => IndexImpl.query_range m value.data op
  | none => []

/-- Embeds `NoSqlDataObject::query_prefix` (src/src/data_object.rs). -/
def queryPfxAttr (t : NoSqlDataObject) (attr : String) (p : String) : List IndexId :=
  match t.index.lookup attr with
  | some m => IndexImpl.queryPfx m p.data
  | none => []

/-- Embeds `NoSqlDataObject::query_suffix` (src/src/data_object.rs). -/
def query_suffix (t : NoSqlDataObject) (attr : String) (s : String) : List IndexId :=
  match t.index.lookup attr with
  | some m => IndexImpl.query_suffix m s.data
  | none => []

/-- Embeds `NoSqlDataObject::query_contains` (src/src/data_object.rs). -/
def query_contains (t : NoSqlDataObject) (attr : String) (s : String) : List IndexId :=
  match t.index.lookup attr with
  | some m => IndexImpl.query_contains m s.data
  | none => []

/-- Embeds `NoSqlDataObject::query_wildcard` (src/src/data_object.rs). -/
def query_wildcard (t : NoSqlDataObject) : WildCardOperations → List IndexId
  | .StartsWith attr p => t.queryPfxAttr attr p
  | .EndsWith attr s => t.query_suffix attr s
  | .Contains attr s => t.query_contains attr s

/-- Embeds `NoSqlDataObject::query` (src/src/data_object.rs): `And` retains
in the left result the locators contained in the right result; `Or` extends
the left result with the right one and then calls `Vec::dedup`. -/
def query (t : NoSqlDataObject) : Condition → List IndexId
  | .WildCard op => t.query_wildcard op
  | .Equal attr value => t.query_equal attr value
  | .GreaterThan attr value => t.query_range attr value .GreaterThan
  | .GreaterThanOrEqual attr value => t.query_range attr value .GreaterThanOrEqual
  | .LessThan attr value => t.query_range attr value .LessThan
  | .LessThanOrEqual attr value => t.query_range attr value .LessThanOrEqual
  | .And cond1 cond2 =>
      let results1 := t.query cond1
      let results2 := t.query cond2
      results1.filter (fun item => results2.contains item)
  | .Or cond1 cond2 =>
      let results1 := t.query cond1
      let results2 := t.query cond2
      vecDedup (results1 ++ results2)

end NoSqlDataObject

/-- Helper for `NoSqlDataObject.add_to_index`: apply `IndexImpl::add_to_index`
to the single entry of the attribute map that holds the given attribute (the
`get_mut` update of the Rust `HashMap`). -/
def updateIdx (index : List (String × IndexMap)) (attr : String) (k : Key)
    (id : IndexId) : List (String × IndexMap) :=
  index.map (fun e => if e.1 = attr then (e.1, IndexImpl.add_to_index e.2 k id) else e)

/-- Embeds `NoSqlDataObject::add_to_index` (src/src/data_object.rs): for each
attribute in the list, if an index exists for its key, add
(value rendered by `Display`, locator) to it.  The `index.save()` call only
persists the map and is not modelled.  `none` models the `Display` panic on
array/object/null values (never reached below). -/
def addToIndexAll (index : List (String × IndexMap)) (index_data : List Data)
    (index_id : IndexId) : Option (List (String × IndexMap)) :=
  match index_data with
  | [] => some index
  | d :: rest =>
      if (index.lookup d.key).isSome then
        match displayDataObject d.value with
        | none => none
        | some s => addToIndexAll (updateIdx index d.key s.data index_id) rest index_id
      else addToIndexAll index rest index_id

namespace NoSqlDataObject

/-- Embeds `NoSqlDataObject::handle_insert` together with its callee
`insert_record` (src/src/data_object.rs): validate the attributes against the
schema (early `Err` return leaves the table untouched); otherwise serialize
the record, append it at the end of the data file (the position is the file's
previous length), and add every schema attribute present in the data — plus
the `object_id` entry — to the indices.  The result pairs the table state
after the call with `some e` for `Err(e)` and `none` for `Ok(())`; the outer
`none` models the `Display` panic. -/
def handle_insert (t : NoSqlDataObject) (insert_data : InsertData) :
    Option (NoSqlDataObject × Option DataObjectError) :=
  let attributes := get_attributes insert_data.data
  match validate_index_data t.definition attributes with
  | some e => some (t, some e)
  | none =>
      let data := serInsertData insert_data
      let position := t.dataFile.length
      let index_id : IndexId := { position := position, length := data.length }
      let t1 : NoSqlDataObject := { t with dataFile := t.dataFile ++ data }
      let indexed_attr :=
        attributes.filter (fun att => (t.definition.lookup att.key).isSome)
      let index_data : Data := .mk "object_id" (.String insert_data.object_id)
      match addToIndexAll t1.index (indexed_attr ++ [index_data]) index_id with
      | none => none
      | some idx => some ({ t1 with index := idx }, none)

/-- Embeds the validation/lookup part of `NoSqlDataObject::handle_update`
(src/src/data_object.rs, lines 349-366): resolve the filter, gather the
update's attributes, validate them against the schema (an undefined attribute
is an `Insert` error), then fail with `Update("Data not found")` when the
filter resolved to no locator.  `none` means the function proceeds into
`update_record`/`update_index`; that tail is not embedded — it is never
reached by the claims below (all about the error paths), and the source's
`update_index` does not compile as written (it uses the unbound names
`old_index_id` and `new_index_id`). -/
def handle_update_check (t : NoSqlDataObject) (update_data : InsertData)
    (q : Query) : Option DataObjectError :=
  let old_index_id := t.query q.filter
  let updated_attributes := get_attributes update_data.data
  match validate_index_data t.definition updated_attributes with
  | some e => some e
  | none =>
      if old_index_id.isEmpty then some (.Update "Data not found")
      else none

/-- Embeds the lookup part of `NoSqlDataObject::handle_delete`
(src/src/data_object.rs, lines 368-378): resolve the filter and fail with
`Delete("Data not found")` when it resolved to no locator; `none` means the
function proceeds into `delete_records` (the in-place rewrite, not needed by
the claims below). -/
def handle_delete_check (t : NoSqlDataObject) (q : Query) : Option DataObjectError :=
  let index_ids := t.query q.filter
  if index_ids.isEmpty then some (.Delete "Data not found") else none

/-- Embeds `NoSqlDataObject::get_record` (src/src/data_object.rs): for each
locator, seek to its position in the data file, read exactly `length` bytes,
and deserialize; a deserialization failure aborts with a `Deserialize` error.
The outer `none` models the `unwrap` panic when the read runs past the end of
the file. -/
def get_record (dataFile : List Nat) : List IndexId →
    Option (Except DataObjectError (List InsertData))
  | [] => some (.ok [])
  | i :: rest =>
      if dataFile.length < i.position + i.length then none
      else
        match deserInsertData ((dataFile.drop i.position).take i.length) with
        | none => some (.error (.Deserialize "Error deserializing data"))
        | some r =>
            match get_record dataFile rest with
            | some (.ok rs) => some (.ok (r :: rs))
            | other => other

/-- Embeds `NoSqlDataObject::handle_query` (src/src/data_object.rs): resolve
the condition to locators, then read the records. -/
def handle_query (t : NoSqlDataObject) (condition : Condition) :
    Option (Except DataObjectError (List InsertData)) :=
  let object_ids := t.query condition
  get_record t.dataFile object_ids

/-- Embeds `NoSqlDataObject::compare_data_objects` (src/src/data_object.rs):
when both records carry objects, every pair of the old object whose key does
not occur in the update object is pushed onto the update object's pairs, and
`object_id`, `table` and `active` are taken from the update record; for any
other shape the old data and `active` are kept with the new identity
fields. -/
def compare_data_objects (old_insert_data : InsertData)
    (new_insert_data : InsertData) : InsertData :=
  match old_insert_data.data, new_insert_data.data with
  | .Object old_data_vec, .Object new_data_vec =>
      let missing_old_data := old_data_vec.filter (fun old_data =>
        (new_data_vec.find? (fun new_data => new_data.key = old_data.key)).isNone)
      { data := .Object (new_data_vec ++ missing_old_data),
        table := new_insert_data.table,
        active := new_insert_data.active,
        object_id := new_insert_data.object_id }
  | _, _ =>
      { object_id := new_insert_data.object_id,
        table := new_insert_data.table,
        data := old_insert_data.data,
        active := old_insert_data.active }

end NoSqlDataObject

/-!  Database-level model: `NoSqlDatabase` (src/src/database.rs). -/

/-- Embeds `enum DataResponse` (src/src/database.rs). -/
inductive DataResponse where
  | Data (records : List InsertData)
  | Error (msg : String)
deriving Repr

/-- Embeds the `Display` impl of `DataObjectError` (src/src/data_object.rs). -/
def DataObjectError.render : DataObjectError → String
  | .Serialize e => "Serialize Error: " ++ e
  | .Deserialize e => "Deserialize Error: " ++ e
  | .Update e => "Update Error: " ++ e
  | .Insert e => "Insert Error: " ++ e
  | .Delete e => "Delete Error: " ++ e
  | .Create e => "Create Error: " ++ e

/-- Embeds `struct NoSqlDatabase` (src/src/database.rs): the map from table
name to table. -/
structure NoSqlDatabase where
  data_objects : List (String × NoSqlDataObject)

/-- Embeds `NoSqlDatabase::handle_query` (src/src/database.rs, lines
192-201).  When the table is found the source builds the `Data`/`Error`
response in a `match` expression — but that expression is terminated by a
semicolon, so its value is discarded and the function falls through to the
final `DataResponse::Error("Table <t> not found")` in every case.  The
discarded value is kept here as the unused `let` binding to mirror the
source; the outer `none` propagates the read panic of `get_record`. -/
def NoSqlDatabase.handle_query (db : NoSqlDatabase) (q : Query) :
    Option DataResponse :=
  match db.data_objects.lookup q.table_name with
  | some data_object =>
      match data_object.handle_query q.filter with
      | none => none
      | some query_data =>
          let _ : DataResponse :=
            match query_data with
            | .ok data => .Data data
            | .error e => .Error ("Error Quering data " ++ e.render)
          some (.Error ("Table " ++ q.table_name ++ " not found"))
  | none => some (.Error ("Table " ++ q.table_name ++ " not found"))

/-!
Parser model (src/src/parser.rs).  The nom combinators are embedded over
`List Char`: a parser maps the input to `none` (nom `Err`) or
`some (remaining, value)` (nom `Ok`).  `multispace0/1` recognize the ASCII
whitespace set; `is_alphanumeric`/`is_alphabetic` are modelled by the ASCII
`Char.isAlphanum`/`Char.isAlpha` (all inputs in this development are
ASCII). -/

/-- Whitespace set of nom's `multispace0/1`. -/
def isWsChar (c : Char) : Bool :=
  c = ' ' || c = '\t' || c = '\r' || c = '\n'

/-- Character class of a condition's field name:
`c.is_alphanumeric() || c == '_'`. -/
def isIdentChar (c : Char) : Bool :=
  c.isAlphanum || c = '_'

/-- Character class of a condition's value:
`c.is_alphanumeric() || c == '_' || c == '-'`. -/
def isValueChar (c : Char) : Bool :=
  c.isAlphanum || c = '_' || c = '-'

/-- Embeds nom's `tag`: consume the exact token or fail. -/
def tagP (t : List Char) (input : List Char) : Option (List Char) :=
  if t.isPrefixOf input then some (input.drop t.length) else none

/-- Embeds nom's `alpha1` (used by `extract_table_name`). -/
def alpha1P (input : List Char) : Option (List Char × List Char) :=
  let a := input.takeWhile Char.isAlpha
  if a.isEmpty then none else some (input.drop a.length, a)

/-- Embeds `remove` (src/src/parser.rs): `tag(to_remove)` then `multispace1`;
returns the input after the keyword and at least one whitespace. -/
def removeKw (to_remove : List Char) (input : List Char) : Option (List Char) := do
  let i ← tagP to_remove input
  let ws := i.takeWhile isWsChar
  if ws.isEmpty then none else some (i.drop ws.length)

/-- Embeds Rust `str::trim`. -/
def trimList (l : List Char) : List Char :=
  ((l.dropWhile isWsChar).reverse.dropWhile isWsChar).reverse

/-- Embeds `parse_value` (src/src/parser.rs): either a `'`-quoted run of
value characters, or (on any failure of the quoted branch, nom `alt`
backtracks to the original input) a nonempty run of value characters. -/
def parse_value (input : List Char) : Option (List Char × String) :=
  let quoted : Option (List Char × String) :=
    match input with
    | '\'' :: rest =>
        let v := rest.takeWhile isValueChar
        match rest.drop v.length with
        | '\'' :: rest2 => some (rest2, String.mk v)
        | _ => none
    | _ => none
  match quoted with
  | some r => some r
  | none =>
      let v := input.takeWhile isValueChar
      if v.isEmpty then none else some (input.drop v.length, String.mk v)

/-- One alternative of `parse_simple_condition`: a field name
(`take_while` of ident characters), the operator tag delimited by
`multispace0`, then `parse_value`. -/
def simpleOp (opTag : List Char) (input : List Char) :
    Option (List Char × String × String) := do
  let field := input.takeWhile isIdentChar
  let i1 := (input.drop field.length).dropWhile isWsChar
  let i2 ← tagP opTag i1
  let i3 := i2.dropWhile isWsChar
  let (rest, v) ← parse_value i3
  some (rest, String.mk field, v)

/-- Embeds `parse_simple_condition` (src/src/parser.rs): the eight operator
alternatives tried in source order (`=`, `>=`, `>`, `<=`, `<`, `LIKE`,
`STARTS WITH`, `ENDS WITH`). -/
def parse_simple_condition (input : List Char) : Option (List Char × Condition) :=
  ((simpleOp "=".data input).map (fun p => (p.1, Condition.Equal p.2.1 p.2.2))) <|>
  ((simpleOp ">=".data input).map (fun p => (p.1, Condition.GreaterThanOrEqual p.2.1 p.2.2))) <|>
  ((simpleOp ">".data input).map (fun p => (p.1, Condition.GreaterThan p.2.1 p.2.2))) <|>
  ((simpleOp "<=".data input).map (fun p => (p.1, Condition.LessThanOrEqual p.2.1 p.2.2))) <|>
  ((simpleOp "<".data input).map (fun p => (p.1, Condition.LessThan p.2.1 p.2.2))) <|>
  ((simpleOp "LIKE".data input).map (fun p =>
      (p.1, Condition.WildCard (.Contains p.2.1 p.2.2)))) <|>
  ((simpleOp "STARTS WITH".data input).map (fun p =>
      (p.1, Condition.WildCard (.StartsWith p.2.1 p.2.2)))) <|>
  ((simpleOp "ENDS WITH".data input).map (fun p =>
      (p.1, Condition.WildCard (.EndsWith p.2.1 p.2.2))))

/-- Embeds the bracket strip of `parse_complex_condition`
(src/src/parser.rs):
`input.strip_prefix('(').unwrap_or(input).strip_suffix(')').unwrap_or(input)`
— note the second `unwrap_or` falls back to the *original* input. -/
def stripParens (input : List Char) : List Char :=
  let after := if input.head? == some '(' then input.drop 1 else input
  if after.getLast? == some ')' then after.dropLast else input

mutual
/-- Embeds `parse_condition` (src/src/parser.rs): `multispace0`, one
`parse_complex_condition`, then the left-associative
`many0((AND|OR) parse_complex_condition)` fold.  `fuel` bounds the mutual
recursion depth (each bracket strip removes two characters and each loop
iteration consumes a connective, so any fuel above `2 * |input| + 1` is
unreachable). -/
def parse_conditionF : Nat → List Char → Option (List Char × Condition)
  | 0, _ => none
  | fuel + 1, input =>
      let i := input.dropWhile isWsChar
      match parse_complex_conditionF fuel i with
      | none => none
      | some (i2, first_condition) => parse_condLoop fuel first_condition i2

/-- The `many0` fold of `parse_condition`: on a failing iteration the loop
stops and keeps the input from before that iteration, as nom's `many0`
does. -/
def parse_condLoop : Nat → Condition → List Char → Option (List Char × Condition)
  | 0, _, _ => none
  | fuel + 1, acc, input =>
      let i1 := input.dropWhile isWsChar
      match ((tagP "AND".data i1).map (fun r => (r, true))) <|>
            ((tagP "OR".data i1).map (fun r => (r, false))) with
      | none => some (input, acc)
      | some (i2, isAnd) =>
          let i3 := i2.dropWhile isWsChar
          match parse_complex_conditionF fuel i3 with
          | none => some (input, acc)
          | some (rest, next) =>
              parse_condLoop fuel (if isAnd then .And acc next else .Or acc next) rest

/-- Embeds `parse_complex_condition` (src/src/parser.rs): when the whole
remaining input starts with `'('` *and* ends with `')'`, strip one bracket
pair and parse the inside as a condition; otherwise parse a simple
condition. -/
def parse_complex_conditionF : Nat → List Char → Option (List Char × Condition)
  | 0, _ => none
  | fuel + 1, input =>
      if input.head? == some '(' && input.getLast? == some ')' then
        parse_conditionF fuel (stripParens input)
      else parse_simple_condition input
end

/-- Entry point for the condition grammar with adequate fuel. -/
def parse_condition (input : List Char) : Option (List Char × Condition) :=
  parse_conditionF (2 * input.length + 2) input

/-!  JSON model: serde_json's `Value` as consumed by the parser.  serde_json
itself is an external crate; the one fact of it the source relies on is the
shape of the produced `Value`, so the update-command embedding is
parameterized by the `from_str` function.  serde_json's default map type
iterates its entries in ascending key order. -/

/-- Model of `serde_json::Number`: an integer, or a float carried by its
IEEE-754 bit pattern (`is_f64` distinguishes the two). -/
inductive JsonNumber where
  | I (v : Int)
  | F (bits : Nat)
deriving Repr

/-- Model of `serde_json::Value`. -/
inductive JsonValue where
  | Null
  | Bool (b : Bool)
  | Number (n : JsonNumber)
  | String (s : String)
  | Array (xs : List JsonValue)
  | Object (fields : List (String × JsonValue))
deriving Repr

mutual
/-- Embeds `handle_array` (src/src/parser.rs): convert every element,
*skipping* `Null` elements, and wrap in `DataObject::Array`. -/
def handle_array (array : List JsonValue) : DataObject :=
  .Array (handleArrayItems array)

/-- Element loop of `handle_array`. -/
def handleArrayItems : List JsonValue → List DataObject
  | [] => []
  | v :: t =>
      match v with
      | .String s => .String s :: handleArrayItems t
      | .Number (.F bits) => .Number (.Float bits) :: handleArrayItems t
      | .Number (.I n) => .Number (.Int n) :: handleArrayItems t
      | .Array a => handle_array a :: handleArrayItems t
      | .Object o => handle_object o :: handleArrayItems t
      | .Bool b => .Bool b :: handleArrayItems t
      | .Null => handleArrayItems t

/-- Embeds `handle_object` (src/src/parser.rs): convert every (key, value)
entry (a `Null` value becomes `DataObject::Null`) and wrap in
`DataObject::Object`. -/
def handle_object (object : List (String × JsonValue)) : DataObject :=
  .Object (handleObjectItems object)

/-- Entry loop of `handle_object`. -/
def handleObjectItems : List (String × JsonValue) → List Data
  | [] => []
  | (k, v) :: t =>
      match v with
      | .String s => .mk k (.String s) :: handleObjectItems t
      | .Number (.F bits) => .mk k (.Number (.Float bits)) :: handleObjectItems t
      | .Number (.I n) => .mk k (.Number (.Int n)) :: handleObjectItems t
      | .Array a => .mk k (handle_array a) :: handleObjectItems t
      | .Object o => .mk k (handle_object o) :: handleObjectItems t
      | .Bool b => .mk k (.Bool b) :: handleObjectItems t
      | .Null => .mk k .Null :: handleObjectItems t
end

/-- Embeds `enum SyntaxErrorCode` (src/src/parser.rs). -/
inductive SyntaxErrorCode where
  | UnKnownKeyWord
  | InvalidOperator
  | UnKnownOperator
  | InvalidDefinition
  | InvalidDataType
  | InvalidValue
deriving Repr, DecidableEq

/-- Embeds `enum SyntaxError` (src/src/parser.rs).  The message strings of
the source interpolate `{:?}` renderings of nom/serde errors; the embedding
keeps only the fixed message prefix. -/
inductive SyntaxError where
  | SyntaxError (code : SyntaxErrorCode) (msg : String)
  | ParseError (msg : String)
deriving Repr

/-- Embeds `enum Command` (src/src/parser.rs). -/
inductive Command where
  | Select (q : Query)
  | Insert (d : InsertData)
  | Update (d : InsertData) (q : Query)
  | Delete (q : Query)
  | Create (database : String)
  | Define (db : String) (table : String) (schema : List (String × Definition))
  | Alter
  | Drop
deriving Repr

/-- Embeds `parse_json_value` (src/src/parser.rs): a JSON object converts
through `handle_object`; anything else is a `ParseError`. -/
def parse_json_value (json : JsonValue) : Except SyntaxError DataObject :=
  match json with
  | .Object obj => .ok (handle_object obj)
  | _ => .error (.ParseError "Unable to parse JSON")

/-- Embeds `extract_update_json` with its inner `parse_update_json`
(src/src/parser.rs): `char('{')`, then `map_res(take_while(c != '}'),
from_str("{" ++ s ++ "}"))`, then `char('}')`.  `fromStr` is the model of
`serde_json::from_str`. -/
def extract_update_json (fromStr : String → Option JsonValue)
    (input : List Char) : Option (List Char × JsonValue) :=
  match input with
  | '{' :: rest =>
      let inner := rest.takeWhile (fun c => c ≠ '}')
      match fromStr (String.mk ('{' :: (inner ++ ['}']))) with
      | none => none
      | some v =>
          match rest.drop inner.length with
          | '}' :: rest2 => some (rest2, v)
          | _ => none
  | _ => none

/-- Embeds `parse_update_command` (src/src/parser.rs, lines 450-552),
parameterized by the model of `serde_json::from_str`.  The steps, in source
order: `remove(UPDATE)`, `extract_table_name`, `extract_update_json` on the
trimmed input, `parse_json_value`, `remove_white_spaces`, `remove(WHERE)`,
`remove_white_spaces`, then the leftover `extract_json` (= `multispace1`)
validation — which fails whenever the remaining input does not start with
whitespace — and finally `parse_condition`.  On success the carried
`InsertData` is built with `object_id: ""`, the table name, the parsed data
and `active: true`. -/
def parse_update_command (fromStr : String → Option JsonValue) (db : String)
    (input : List Char) : Except SyntaxError Command :=
  match removeKw "UPDATE".data input with
  | none => .error (.SyntaxError .InvalidValue "")
  | some i =>
  match alpha1P i with
  | none => .error (.ParseError "Could not parse table name")
  | some (i, table_name) =>
  match extract_update_json fromStr (trimList i) with
  | none => .error (.ParseError "Could not parse the update json")
  | some (i, json) =>
  match parse_json_value json with
  | .error e => .error e
  | .ok update_data =>
  let i := i.dropWhile isWsChar
  match removeKw "WHERE".data i with
  | none => .error (.ParseError "Could not parse the update command")
  | some i =>
  let i := i.dropWhile isWsChar
  if (i.takeWhile isWsChar).isEmpty then .error (.ParseError "Could not parse JSON")
  else
    match parse_conditionF (2 * i.length + 2) i with
    | none => .error (.ParseError "Could not parse condition")
    | some (_, filter) =>
        .ok (.Update
          { object_id := "", table := String.mk table_name,
            data := update_data, active := true }
          { db := db, table_name := String.mk table_name, filter := filter })

/-- Discriminator for `Except` results. -/
def exceptIsErr {ε α : Type} : Except ε α → Bool
  | .error _ => true
  | .ok _ => false

/-- Specification-side comparison of `query_range` (§4.2 of the spec): does
the key's lexicographic string comparison with `value` satisfy `op`? -/
def rangeSat (op : RangeOp) (key value : Key) : Bool :=
  match op with
  | .GreaterThan => lexLt value key
  | .GreaterThanOrEqual => !lexLt key value
  | .LessThan => lexLt key value
  | .LessThanOrEqual => !lexLt value key

/-- Specification-side evaluator of the prefix query (the naive evaluator of
C8): scan every key of the map and keep the locators of those starting with
`p`, in map order. -/
def queryPfxNaive (m : IndexMap) (p : Key) : List IndexId :=
  ((m.filter (fun e => p.isPrefixOf e.1)).map Prod.snd).flatten

/-- Specification-side deduplication (the union of C2's claim): keep only
the first occurrence of every locator. -/
def dedupKeepFirst (l : List IndexId) : List IndexId :=
  l.foldl (fun acc x => if acc.contains x then acc else acc ++ [x]) []

/-!  Concrete fixtures used by the counterexample / witness theorems. -/

/-- A record as inserted by scenario 3 of the spec. -/
def johnRecord : InsertData :=
  { object_id := "u1", table := "user",
    data := .Object [.mk "name" (.String "John")], active := true }

/-- A one-record `user` table: the record's bytes in the data file, its
locator under key `John` in the `name` index and under `u1` in the
`object_id` index. -/
def usersTable : NoSqlDataObject :=
  { definition := [("name", ⟨"String", true, false⟩), ("age", ⟨"Number", false, true⟩)],
    index := [("name", [("John".data, [⟨0, (serInsertData johnRecord).length⟩])]),
              ("object_id", [("u1".data, [⟨0, (serInsertData johnRecord).length⟩])])],
    dataFile := serInsertData johnRecord }

/-- A database whose table map contains the `user` table. -/
def appDb : NoSqlDatabase :=
  { data_objects := [("user", usersTable)] }

/-- A table whose `a` index holds two keys with one locator each; querying
`Or(Or(a=1, a=2), a=1)` on it concatenates `[x, y]` with `[x]`. -/
def orDupTable : NoSqlDataObject :=
  { definition := [("a", ⟨"String", true, false⟩)],
    index := [("a", [("1".data, [⟨0, 10⟩]), ("2".data, [⟨1, 10⟩])])],
    dataFile := [] }

/-- The `Or` condition whose two sides produce `[x, y]` and `[x]`. -/
def orDupCondition : Condition :=
  .Or (.Or (.Equal "a" "1") (.Equal "a" "2")) (.Equal "a" "1")

/-- A table with a `name` schema attribute and a `name` index holding only
the key `John`. -/
def c4Table : NoSqlDataObject :=
  { definition := [("name", ⟨"String", true, false⟩)],
    index := [("name", [("John".data, [⟨0, 5⟩])])],
    dataFile := [] }

/-- A query whose filter matches no index entry of `c4Table`. -/
def c4Query : Query :=
  { db := "app", table_name := "user", filter := .Equal "name" "Mary" }

/-- Update data carrying an attribute that is not in `c4Table`'s schema. -/
def c4BadUpdate : InsertData :=
  { object_id := "", table := "user",
    data := .Object [.mk "zzz" (.String "1")], active := true }

/-- Update data that passes `c4Table`'s schema validation. -/
def c4GoodUpdate : InsertData :=
  { object_id := "", table := "user",
    data := .Object [.mk "name" (.String "x")], active := true }

/-- Insert data carrying an attribute that is not in `c4Table`'s schema. -/
def c5Insert : InsertData :=
  { object_id := "x", table := "user",
    data := .Object [.mk "zzz" (.String "1")], active := true }

/-- An old record for the merge of C6: a `name` and an `age` field. -/
def c6Old : InsertData :=
  { object_id := "u1", table := "user",
    data := .Object [.mk "name" (.String "John"), .mk "age" (.Number (.Int 30))],
    active := true }

/-- Update data for the merge of C6: only the `age` field. -/
def c6New : InsertData :=
  { object_id := "", table := "user",
    data := .Object [.mk "age" (.Number (.Int 31))], active := true }

/-- A sorted index map whose keys are the strings `10` and `2` (in this
order, because the comparison is lexicographic). -/
def tenTwoMap : IndexMap :=
  [("10".data, [⟨0, 7⟩]), ("2".data, [⟨1, 7⟩])]

/-- A sorted index map used by the C8 witness. -/
def abMap : IndexMap :=
  [("ab".data, [⟨0, 3⟩]), ("b".data, [⟨1, 3⟩])]

/-- Model of `serde_json::from_str` for the single JSON document of the C10
failing input (serde_json's map iterates in ascending key order, hence `age`
before `name`). -/
def jpUpdateExample : String → Option JsonValue := fun s =>
  if s = "\x7b\"name\":\"John\",\"age\":30\x7d" then
    some (.Object [("age", .Number (.I 30)), ("name", .String "John")])
  else none

/-- The UPDATE command of the parser's own `test_parse_update` test. -/
def updateExampleInput : List Char :=
  "UPDATE user \x7b\"name\":\"John\",\"age\":30\x7d WHERE id = '123'".data

/-!
Order lemmas about `lexLt`, used to relate the sorted-map plans of
`query_range` and `query_prefix` to the naive evaluators over all keys. -/

/-- Transitivity of the lexicographic order. -/
theorem lexLt_trans : ∀ (a b c : Key), lexLt a b = true → lexLt b c = true →
    lexLt a c = true
  | [], [], _, h1, _ => by simp [lexLt] at h1
  | [], _ :: _, [], _, h2 => by simp [lexLt] at h2
  | [], _ :: _, _ :: _, _, _ => by simp [lexLt]
  | _ :: _, [], _, h1, _ => by simp [lexLt] at h1
  | _ :: _, _ :: _, [], _, h2 => by simp [lexLt] at h2
  | a :: as, b :: bs, c :: cs, h1, h2 => by
      simp only [lexLt] at h1 h2 ⊢
      by_cases hab : a < b
      · by_cases hbc : b < c
        · simp [lt_trans hab hbc]
        · by_cases hcb : c < b
          · simp [hbc, hcb] at h2
          · have hbc' : b = c := le_antisymm (not_lt.mp hcb) (not_lt.mp hbc)
            subst hbc'
            simp [hab]
      · by_cases hba : b < a
        · simp [hab, hba] at h1
        · have hab' : a = b := le_antisymm (not_lt.mp hba) (not_lt.mp hab)
          subst hab'
          simp only [hab, if_neg hab, lt_irrefl, if_false] at h1
          by_cases hac : a < c
          · simp [hac]
          · by_cases hca : c < a
            · simp [hac, hca] at h2
            · have hac' : a = c := le_antisymm (not_lt.mp hca) (not_lt.mp hac)
              subst hac'
              simp only [lt_irrefl, if_false] at h2 ⊢
              exact lexLt_trans as bs cs h1 h2

/-- A key that starts with `p` is not lexicographically below `p`. -/
theorem isPrefixOf_lexLt_false : ∀ (p k : Key), p.isPrefixOf k = true →
    lexLt k p = false
  | [], [], _ => by simp [lexLt]
  | [], _ :: _, _ => by simp [lexLt]
  | _ :: _, [], h => by simp [List.isPrefixOf] at h
  | a :: as, b :: bs, h => by
      simp only [List.isPrefixOf, Bool.and_eq_true, beq_iff_eq] at h
      obtain ⟨rfl, hpre⟩ := h
      simp only [lexLt, lt_irrefl, if_false]
      exact isPrefixOf_lexLt_false as bs hpre

/-- Once the scan from the lower bound `p` meets a key `k ≥ p` that does not
start with `p`, no later (larger) key `k'` starts with `p` either: the keys
starting with `p` form a contiguous run beginning at the lower bound. -/
theorem not_pfx_of_gt_not_pfx : ∀ (p k k' : Key), lexLt k p = false →
    p.isPrefixOf k = false → lexLt k k' = true → p.isPrefixOf k' = false
  | [], k, _, _, h2, _ => by simp [List.isPrefixOf] at h2
  | _ :: _, [], _, h1, _, _ => by simp [lexLt] at h1
  | _ :: _, _ :: _, [], _, _, h3 => by simp [lexLt] at h3
  | a :: as, b :: bs, c :: cs, h1, h2, h3 => by
      simp only [lexLt] at h1 h3
      simp only [List.isPrefixOf] at h2 ⊢
      by_cases hba : b < a
      · simp [hba] at h1
      · have hbc : b < c ∨ b = c := by
          by_cases h : b < c
          · exact .inl h
          · by_cases h' : c < b
            · simp [h, h'] at h3
            · exact .inr (le_antisymm (not_lt.mp h') (not_lt.mp h))
        by_cases hab : a < b
        · have hac : a < c := by
            rcases hbc with h | h
            · exact lt_trans hab h
            · exact h ▸ hab
          have : (a == c) = false := beq_eq_false_iff_ne.mpr (ne_of_lt hac)
          simp [this]
        · have hab' : a = b := le_antisymm (not_lt.mp hba) (not_lt.mp hab)
          subst hab'
          simp only [lt_irrefl, if_false] at h1 h3
          simp only [beq_self_eq_true, Bool.true_and] at h2
          rcases hbc with h | h
          · have : (a == c) = false := beq_eq_false_iff_ne.mpr (ne_of_lt h)
            simp [this]
          · subst h
            simp only [lt_irrefl, if_false] at h3
            have := not_pfx_of_gt_not_pfx as bs cs h1 h2 h3
            simp [this]

/-- The branch on `op` inside the loop of `query_range` computes exactly the
`rangeSat` test on the entry's key. -/
theorem range_step (v : Key) (op : RangeOp) :
    (fun (acc : List (List IndexId)) (e : Key × List IndexId) =>
      match op with
      | .GreaterThan => if lexLt v e.1 then acc ++ [e.2] else acc
      | .GreaterThanOrEqual => if !lexLt e.1 v then acc ++ [e.2] else acc
      | .LessThan => if lexLt e.1 v then acc ++ [e.2] else acc
      | .LessThanOrEqual => if !lexLt v e.1 then acc ++ [e.2] else acc)
    = fun acc e => if rangeSat op e.1 v then acc ++ [e.2] else acc := by
  funext acc e
  cases op <;> simp [rangeSat]

/-- The first loop of `query_range` collects exactly the locator lists of the
keys satisfying the comparison, in map order. -/
theorem range_loop_eq (v : Key) (op : RangeOp) :
    ∀ (l : IndexMap) (acc : List (List IndexId)),
      (l.foldl (fun acc e => if rangeSat op e.1 v then acc ++ [e.2] else acc) acc)
      = acc ++ (l.filter (fun e => rangeSat op e.1 v)).map Prod.snd
  | [], acc => by simp
  | e :: t, acc => by
      cases h : rangeSat op e.1 v <;>
        simp [List.foldl_cons, List.filter_cons, h, range_loop_eq v op t]

/-- Folding `++` over a list of locator lists flattens it. -/
theorem foldl_append_flatten :
    ∀ (l : List (List IndexId)) (acc : List IndexId),
      l.foldl (fun results object_ids => results ++ object_ids) acc = acc ++ l.flatten
  | [], acc => by simp
  | x :: t, acc => by
      simp only [List.foldl_cons, List.flatten_cons, foldl_append_flatten t]
      simp

/-- Folding the entry loop `results.extend(object_ids)` over index entries
concatenates the locator lists in entry order. -/
theorem foldl_extend_flatten :
    ∀ (l : IndexMap) (acc : List IndexId),
      l.foldl (fun results e => results ++ e.2) acc = acc ++ (l.map Prod.snd).flatten
  | [], acc => by simp
  | e :: t, acc => by
      simp only [List.foldl_cons, List.map_cons, List.flatten_cons, foldl_extend_flatten t]
      simp

/-- On a run of keys that are all `≥ p`, stopping at the first key that does
not start with `p` loses nothing: later keys cannot start with `p` either. -/
theorem takeWhile_eq_filter_of_lb (p : Key) :
    ∀ (l : IndexMap), IndexMapSorted l → (∀ e ∈ l, lexLt e.1 p = false) →
      l.takeWhile (fun e => p.isPrefixOf e.1) = l.filter (fun e => p.isPrefixOf e.1)
  | [], _, _ => rfl
  | e :: t, hs, hge => by
      rw [IndexMapSorted, List.pairwise_cons] at hs
      cases hb : p.isPrefixOf e.1
      · have hall : ∀ x ∈ t, p.isPrefixOf x.1 = false := fun x hx =>
          not_pfx_of_gt_not_pfx p e.1 x.1 (hge e (List.mem_cons_self e t)) hb (hs.1 x hx)
        rw [List.takeWhile_cons_of_neg (by simp [hb]),
          List.filter_cons_of_neg (by simp [hb])]
        symm
        rw [List.filter_eq_nil_iff]
        intro x hx
        simp [hall x hx]
      · rw [List.takeWhile_cons_of_pos (by simp [hb]),
          List.filter_cons_of_pos (by simp [hb]),
          takeWhile_eq_filter_of_lb p t hs.2
            (fun x hx => hge x (List.mem_cons_of_mem e hx))]

/-- The seek-then-stop plan of `query_prefix` visits exactly the keys that
start with `p`: on a sorted map, dropping the keys below the lower bound `p`
and then taking while the key starts with `p` equals filtering the whole
map. -/
theorem dropWhile_takeWhile_eq_filter (p : Key) :
    ∀ (l : IndexMap), IndexMapSorted l →
      (l.dropWhile (fun e => lexLt e.1 p)).takeWhile (fun e => p.isPrefixOf e.1)
        = l.filter (fun e => p.isPrefixOf e.1)
  | [], _ => rfl
  | e :: t, hs => by
      rw [IndexMapSorted, List.pairwise_cons] at hs
      cases ha : lexLt e.1 p
      · have hge : ∀ x ∈ e :: t, lexLt x.1 p = false := by
          intro x hx
          rcases List.mem_cons.mp hx with rfl | hx
          · exact ha
          · cases hlt : lexLt x.1 p
            · rfl
            · exact absurd (lexLt_trans e.1 x.1 p (hs.1 x hx) hlt) (by simp [ha])
        rw [List.dropWhile_cons_of_neg (by simp [ha])]
        exact takeWhile_eq_filter_of_lb p (e :: t) (List.pairwise_cons.mpr hs) hge
      · have hnp : p.isPrefixOf e.1 = false := by
          cases hp : p.isPrefixOf e.1
          · rfl
          · exact absurd (isPrefixOf_lexLt_false p e.1 hp) (by simp [ha])
        rw [List.dropWhile_cons_of_pos (by simp [ha]),
          List.filter_cons_of_neg (by simp [hnp])]
        exact dropWhile_takeWhile_eq_filter p t hs.2

/-!  Claim theorems. -/

/-- C1: the claim says `Database::handle_query` answers a Select on a present
table with the Data response of the filter evaluation and errors with
`Table <t> not found` only when the table is absent.  The code does the
opposite: on `appDb`, whose table map contains `user` (first conjunct) and
whose filter evaluation produces `Data [johnRecord]` (second conjunct), the
dispatcher still answers `Table user not found` (third conjunct), because the
`match` that builds the response is discarded by a stray semicolon. -/
theorem db_handle_query_table_present_still_not_found :
    (appDb.data_objects.lookup "user").isSome = true
    ∧ usersTable.handle_query (.Equal "name" "John") = some (.ok [johnRecord])
    ∧ appDb.handle_query { db := "app", table_name := "user", filter := .Equal "name" "John" }
        = some (.Error "Table user not found") :=
  ⟨rfl, rfl, rfl⟩

/-- C2: the claim says `Or` returns the concatenation of both result lists
with only the first occurrence of each locator kept.  On `orDupTable` the two
sides produce `[x, y]` and `[x]`; the first-occurrence deduplication of the
concatenation is `[x, y]` (second conjunct), but the code returns
`[x, y, x]` (first conjunct) — `Vec::dedup` removes only consecutive
duplicates — so the result still contains a duplicate (third conjunct) and
differs from the claimed value (fourth conjunct). -/
theorem or_query_keeps_nonadjacent_duplicate :
    orDupTable.query orDupCondition = [⟨0, 10⟩, ⟨1, 10⟩, ⟨0, 10⟩]
    ∧ dedupKeepFirst (orDupTable.query (.Or (.Equal "a" "1") (.Equal "a" "2"))
        ++ orDupTable.query (.Equal "a" "1")) = [⟨0, 10⟩, ⟨1, 10⟩]
    ∧ ¬ (orDupTable.query orDupCondition).Nodup
    ∧ orDupTable.query orDupCondition
        ≠ dedupKeepFirst (orDupTable.query (.Or (.Equal "a" "1") (.Equal "a" "2"))
            ++ orDupTable.query (.Equal "a" "1")) := by
  decide

/-- C3 (counterexample): a parenthesized group that is a non-final term of a
boolean combination does not parse at all — the parser strips brackets only
when the whole remaining input starts with `(` and ends with `)` — so the
claim's universally quantified statement fails on this WHERE clause. -/
theorem parse_leading_group_fails :
    parse_condition "(name = 'John' OR age >= 30) AND id = 'u1'".data = none := by
  decide

/-- C3 (amended): a parenthesized group yields a single nested sub-condition
when it is the final term of the clause and extends to the end of the input;
in particular the clause of scenario 5 parses to
`And(Equal(id,u1), Or(Equal(name,John), GreaterThanOrEqual(age,30)))`
(first conjunct), while the same clause with the group in leading position
fails to parse (second conjunct). -/
theorem parse_trailing_group_nested :
    parse_condition "id = 'u1' AND (name = 'John' OR age >= 30)".data
      = some ([], .And (.Equal "id" "u1")
          (.Or (.Equal "name" "John") (.GreaterThanOrEqual "age" "30")))
    ∧ parse_condition "(name = 'John' OR age >= 30) AND id = 'u1'".data = none := by
  constructor
  · decide
  · decide

/-- C4 (counterexample): on an Update whose filter resolves to the empty
locator list (first conjunct) but whose update data carries an attribute
missing from the schema, `handle_update` does not return
`Update("Data not found")` (second conjunct) — it returns the validation's
`Insert` error instead (third conjunct), because validation precedes the
emptiness check. -/
theorem update_empty_filter_insert_error_first :
    c4Table.query c4Query.filter = []
    ∧ c4Table.handle_update_check c4BadUpdate c4Query
        ≠ some (.Update "Data not found")
    ∧ ∃ s, c4Table.handle_update_check c4BadUpdate c4Query = some (.Insert s) :=
  ⟨by decide, by decide, ⟨_, rfl⟩⟩

/-- C4 (amended): for every Update whose update data passes the schema
validation and whose filter resolves to the empty locator list,
`handle_update` returns `Update("Data not found")`; for every Delete whose
filter resolves to the empty list, `handle_delete` returns
`Delete("Data not found")` (the Delete half holds exactly as claimed). -/
theorem update_delete_empty_data_not_found (t : NoSqlDataObject)
    (u : InsertData) (q : Query)
    (hv : NoSqlDataObject.validate_index_data t.definition
        (NoSqlDataObject.get_attributes u.data) = none)
    (he : t.query q.filter = []) :
    t.handle_update_check u q = some (.Update "Data not found")
    ∧ t.handle_delete_check q = some (.Delete "Data not found") := by
  constructor
  · simp [NoSqlDataObject.handle_update_check, hv, he]
  · simp [NoSqlDataObject.handle_delete_check, he]

/-- C4 (witness): a concrete table, update and query discharging both
hypotheses of the amended theorem. -/
theorem update_delete_empty_data_not_found_witness :
    NoSqlDataObject.validate_index_data c4Table.definition
        (NoSqlDataObject.get_attributes c4GoodUpdate.data) = none
    ∧ c4Table.query c4Query.filter = []
    ∧ c4Table.handle_update_check c4GoodUpdate c4Query = some (.Update "Data not found")
    ∧ c4Table.handle_delete_check c4Query = some (.Delete "Data not found") :=
  ⟨by decide, by decide,
    (update_delete_empty_data_not_found c4Table c4GoodUpdate c4Query
      (by decide) (by decide)).1,
    (update_delete_empty_data_not_found c4Table c4GoodUpdate c4Query
      (by decide) (by decide)).2⟩

/-- C5: an insert whose data carries at least one attribute name not in the
table's schema is rejected with an `Insert` error, and the table state
returned alongside the error is exactly the state before the call — the
validation happens before the data file write and the index additions. -/
theorem insert_undefined_attribute_rejected (t : NoSqlDataObject) (d : InsertData)
    (h : ∃ a ∈ NoSqlDataObject.get_attributes d.data,
        (t.definition.lookup a.key).isNone = true) :
    ∃ s, t.handle_insert d = some (t, some (.Insert s)) := by
  obtain ⟨a, ha, hn⟩ := h
  have hmem : a ∈ (NoSqlDataObject.get_attributes d.data).filter
      (fun att => (t.definition.lookup att.key).isNone) :=
    List.mem_filter.mpr ⟨ha, hn⟩
  have hne : ((NoSqlDataObject.get_attributes d.data).filter
      (fun att => (t.definition.lookup att.key).isNone)).isEmpty = false := by
    rcases hfe : (NoSqlDataObject.get_attributes d.data).filter
        (fun att => (t.definition.lookup att.key).isNone) with _ | ⟨x, xs⟩
    · rw [hfe] at hmem
      exact absurd hmem (List.not_mem_nil a)
    · rw [hfe]
      rfl
  simp only [NoSqlDataObject.handle_insert, NoSqlDataObject.validate_index_data, hne,
    Bool.not_false, if_true]
  exact ⟨_, rfl⟩

/-- C5 (witness): inserting data with the undefined attribute `zzz` into
`c4Table` is rejected and leaves the table unchanged. -/
theorem insert_undefined_attribute_rejected_witness :
    (∃ a ∈ NoSqlDataObject.get_attributes c5Insert.data,
        (c4Table.definition.lookup a.key).isNone = true)
    ∧ ∃ s, c4Table.handle_insert c5Insert = some (c4Table, some (.Insert s)) :=
  ⟨⟨.mk "zzz" (.String "1"), List.mem_singleton.mpr rfl, rfl⟩,
    insert_undefined_attribute_rejected c4Table c5Insert
      ⟨.mk "zzz" (.String "1"), List.mem_singleton.mpr rfl, rfl⟩⟩

/-- C6: when both the old record and the update record carry objects, the
merged record's pairs are exactly the update record's pairs followed by the
old pairs whose key does not occur in the update data, and `object_id`,
`table` and `active` come from the update record. -/
theorem compare_data_objects_merge (o n : InsertData) (ov nv : List Data)
    (ho : o.data = .Object ov) (hn : n.data = .Object nv) :
    NoSqlDataObject.compare_data_objects o n =
      { object_id := n.object_id, table := n.table, active := n.active,
        data := .Object (nv ++ ov.filter
          (fun od => !nv.any (fun nd => nd.key = od.key))) } := by
  have hpt : ∀ od : Data,
      ((nv.find? (fun nd => nd.key = od.key)).isNone : Bool)
        = !nv.any (fun nd => nd.key = od.key) := by
    intro od
    rcases hf : nv.find? (fun nd => nd.key = od.key) with _ | x
    · have hall := List.find?_eq_none.mp hf
      have hany : (nv.any fun nd => nd.key = od.key) = false := by
        rw [List.any_eq_false]
        intro x hx
        simpa using hall x hx
      simp [hf, hany]
    · have hx := List.find?_some hf
      have hxmem := List.mem_of_find?_eq_some hf
      have hany : (nv.any fun nd => nd.key = od.key) = true := by
        rw [List.any_eq_true]
        exact ⟨x, hxmem, by simpa using hx⟩
      simp [hf, hany]
  unfold NoSqlDataObject.compare_data_objects
  rw [ho, hn]
  simp only []
  congr 1
  rw [List.filter_congr (fun od _ => hpt od)]

/-- C6 (witness): merging `{age: 31}` into the record
`{name: John, age: 30}` keeps `name` from the old record, takes `age`, the
identity fields and the active flag from the update. -/
theorem compare_data_objects_merge_witness :
    c6Old.data = .Object [.mk "name" (.String "John"), .mk "age" (.Number (.Int 30))]
    ∧ c6New.data = .Object [.mk "age" (.Number (.Int 31))]
    ∧ NoSqlDataObject.compare_data_objects c6Old c6New =
        { object_id := "", table := "user", active := true,
          data := .Object [.mk "age" (.Number (.Int 31)), .mk "name" (.String "John")] } :=
  ⟨rfl, rfl,
    (compare_data_objects_merge c6Old c6New
      [.mk "name" (.String "John"), .mk "age" (.Number (.Int 30))]
      [.mk "age" (.Number (.Int 31))] rfl rfl).trans (by rfl)⟩

/-- C7: on a sorted index map, `query_range` returns the concatenation, in
ascending key order, of the locator lists of exactly the keys whose
lexicographic comparison with `value` satisfies `op`: the result is the
flattening of the satisfied entries (first conjunct), the satisfied entries
are still in ascending key order (second conjunct), and the order is the
string order under which the key `10` lies below the key `2` (third
conjunct). -/
theorem query_range_lex_filter (m : IndexMap) (v : Key) (op : RangeOp)
    (hs : IndexMapSorted m) :
    IndexImpl.query_range m v op
      = ((m.filter (fun e => rangeSat op e.1 v)).map Prod.snd).flatten
    ∧ IndexMapSorted (m.filter (fun e => rangeSat op e.1 v))
    ∧ lexLt "10".data "2".data = true := by
  refine ⟨?_, hs.filter _, by decide⟩
  unfold IndexImpl.query_range
  rw [range_step, range_loop_eq, foldl_append_flatten]
  simp

/-- C7 (witness): the sorted two-key map with keys `10` and `2`, queried with
`< 2`, returns the locators under `10` — the lexicographic order places `10`
first. -/
theorem query_range_lex_filter_witness :
    IndexMapSorted tenTwoMap
    ∧ (IndexImpl.query_range tenTwoMap "2".data .LessThan
        = ((tenTwoMap.filter (fun e => rangeSat .LessThan e.1 "2".data)).map
            Prod.snd).flatten
      ∧ IndexMapSorted (tenTwoMap.filter (fun e => rangeSat .LessThan e.1 "2".data))
      ∧ lexLt "10".data "2".data = true) :=
  ⟨by decide, query_range_lex_filter tenTwoMap "2".data .LessThan (by decide)⟩

/-- C8: on a sorted index map, the seek-and-stop plan of `query_prefix`
(lower bound at `p`, stop at the first key that does not start with `p`)
returns exactly what the naive evaluator returns — the concatenated locators
of every key of the map that starts with `p`, in ascending key order. -/
theorem queryPfx_eq_naive (m : IndexMap) (p : Key) (hs : IndexMapSorted m) :
    IndexImpl.queryPfx m p = queryPfxNaive m p := by
  unfold IndexImpl.queryPfx
  rw [foldl_extend_flatten, dropWhile_takeWhile_eq_filter p m hs]
  simp [queryPfxNaive]

/-- C8 (witness): on the sorted map with keys `ab` and `b`, the prefix query
for `a` agrees with the naive evaluator. -/
theorem queryPfx_eq_naive_witness :
    IndexMapSorted abMap
    ∧ IndexImpl.queryPfx abMap "a".data = queryPfxNaive abMap "a".data :=
  ⟨by decide, queryPfx_eq_naive abMap "a".data (by decide)⟩

/-- C9: the bincode record encoding serializes `active` as exactly one byte
after the (unchanged) remaining fields, so toggling the flag never changes
the serialized length — the in-place rewrites of Update and Delete therefore
overwrite exactly the original byte span of the record. -/
theorem serialize_active_toggle_length_stable (r : InsertData) (b : Bool) :
    (serInsertData { r with active := b }).length = (serInsertData r).length := by
  simp [serInsertData, List.length_append]

/-- C10: the object_id of a parsed UPDATE's `InsertData` is the literal `""`
and the merge takes its object_id from the update data (third conjunct) — but
no UPDATE command parses successfully at all: on the parser's own
`test_parse_update` input (with the serde document model `jpUpdateExample`)
`parse_update_command` fails (first conjunct) with the `ParseError` of the
leftover `extract_json`/`multispace1` validation (second conjunct), which
runs after every whitespace has already been consumed. -/
theorem update_parse_rejected_and_merge_object_id :
    exceptIsErr (parse_update_command jpUpdateExample "app" updateExampleInput) = true
    ∧ parse_update_command jpUpdateExample "app" updateExampleInput
        = .error (.ParseError "Could not parse JSON")
    ∧ ∀ old u : InsertData,
        (NoSqlDataObject.compare_data_objects old u).object_id = u.object_id := by
  refine ⟨by decide, by rfl, ?_⟩
  intro old u
  obtain ⟨ooid, ot, od, oa⟩ := old
  obtain ⟨noid, nt, nd, na⟩ := u
  cases od <;> cases nd <;> rfl

end QTable
